import Mathlib

/-!
# FMC4030 motion-controller interface

A verification development over `FMC4030-Dll.h`: the status constants, the
two record declarations `struct machine_status` and
`struct machine_device_para`, and their memory layout.

The header is the whole source: it declares constants, records and function
prototypes.  The constants and the record declarations are transcribed here
one to one.  A record declaration is data (a list of member declarations);
its layout is computed from that data by the usual rule of the C ABI of the
target (every member is placed at the next offset that is a multiple of its
alignment, the size of the record is rounded up to the largest alignment).

The functions the header declares have their bodies in the vendor binary.
The record codecs and the two command builders studied here are therefore
modelled from the specification; each such definition says so in its
comment.  The codecs write and read the members at the offsets the header's
declarations give them.
-/

namespace FMC4030

/-! ## Constants -/

/-- `#define MAX_AXIS 3` -/
def MAX_AXIS : Nat := 3

/-- `#define MACHINE_MANUAL 0x0001` (machine_status.machineRunStatus) -/
def MACHINE_MANUAL : Nat := 0x0001
/-- `#define MACHINE_AUTO 0x0002` (machine_status.machineRunStatus) -/
def MACHINE_AUTO : Nat := 0x0002

/-- `#define MACHINE_POWER_ON 0x0000` (machine_status.axisStatus) -/
def MACHINE_POWER_ON : Nat := 0x0000
/-- `#define MACHINE_RUNNING 0x0001` -/
def MACHINE_RUNNING : Nat := 0x0001
/-- `#define MACHINE_PAUSE 0x0002` -/
def MACHINE_PAUSE : Nat := 0x0002
/-- `#define MACHINE_RESUME 0x0004` -/
def MACHINE_RESUME : Nat := 0x0004
/-- `#define MACHINE_STOP 0x0008` -/
def MACHINE_STOP : Nat := 0x0008
/-- `#define MACHINE_LIMIT_N 0x0010` -/
def MACHINE_LIMIT_N : Nat := 0x0010
/-- `#define MACHINE_LIMIT_P 0x0020` -/
def MACHINE_LIMIT_P : Nat := 0x0020
/-- `#define MACHINE_HOME_DONE 0x0040` -/
def MACHINE_HOME_DONE : Nat := 0x0040
/-- `#define MACHINE_HOME 0x0080` -/
def MACHINE_HOME : Nat := 0x0080
/-- `#define MACHINE_AUTO_RUN 0x0100` -/
def MACHINE_AUTO_RUN : Nat := 0x0100
/-- `#define MACHINE_LIMIT_N_NONE 0x0200` -/
def MACHINE_LIMIT_N_NONE : Nat := 0x0200
/-- `#define MACHINE_LIMIT_P_NONE 0x0400` -/
def MACHINE_LIMIT_P_NONE : Nat := 0x0400
/-- `#define MACHINE_HOME_NONE 0x0800` -/
def MACHINE_HOME_NONE : Nat := 0x0800
/-- `#define MACHINE_HOME_OVERTIME 0x1000` -/
def MACHINE_HOME_OVERTIME : Nat := 0x1000

/-! ## Record declarations -/

/-- The element types the two records use. -/
inductive CType where
  | float
  | unsignedInt
  | int
  | char
deriving DecidableEq, Repr

/-- Size in bytes on the target of the library (ubuntu/x64): `float`, `int`
and `unsigned int` take 4 bytes, `char` takes 1. -/
def CType.size : CType → Nat
  | .float => 4
  | .unsignedInt => 4
  | .int => 4
  | .char => 1

/-- Natural alignment: a scalar is aligned to its own size. -/
def CType.align (t : CType) : Nat := t.size

/-- Width in bits. -/
def CType.bits (t : CType) : Nat := 8 * t.size

/-- One member of a record: `ty name dims...;`, with `dims = []` for a
scalar member. -/
structure Field where
  name : String
  ty : CType
  dims : List Nat
deriving DecidableEq, Repr

/-- Number of elements of a member. -/
def Field.count (f : Field) : Nat := f.dims.prod

/-- Bytes a member occupies. -/
def Field.size (f : Field) : Nat := f.ty.size * f.count

/-- The record `struct machine_status`, member by member. -/
def machine_status : List Field :=
  [ ⟨"realPos", .float, [MAX_AXIS]⟩,
    ⟨"realSpeed", .float, [MAX_AXIS]⟩,
    ⟨"inputStatus", .unsignedInt, []⟩,
    ⟨"outputStatus", .unsignedInt, []⟩,
    ⟨"limitNStatus", .unsignedInt, []⟩,
    ⟨"limitPStatus", .unsignedInt, []⟩,
    ⟨"machineRunStatus", .unsignedInt, []⟩,
    ⟨"axisStatus", .unsignedInt, [MAX_AXIS]⟩,
    ⟨"homeStatus", .unsignedInt, []⟩,
    ⟨"file", .char, [20, 30]⟩ ]

/-- The record `struct machine_device_para`, member by member. -/
def machine_device_para : List Field :=
  [ ⟨"id", .unsignedInt, []⟩,
    ⟨"bound232", .unsignedInt, []⟩,
    ⟨"bound485", .unsignedInt, []⟩,
    ⟨"ip", .char, [15]⟩,
    ⟨"port", .int, []⟩,
    ⟨"div", .int, [MAX_AXIS]⟩,
    ⟨"lead", .int, [MAX_AXIS]⟩,
    ⟨"softLimitMax", .int, [MAX_AXIS]⟩,
    ⟨"softLimitMin", .int, [MAX_AXIS]⟩,
    ⟨"homeTime", .int, [MAX_AXIS]⟩ ]

/-- The member of a record with a given name. -/
def member (d : List Field) (name : String) : Option Field :=
  d.find? (fun f => f.name == name)

/-- The shape of a record: element type and dimensions of every member, in
declaration order. -/
def shape (d : List Field) : List (CType × List Nat) :=
  d.map (fun f => (f.ty, f.dims))

/-- `a[i]` is inside the array member `f` (first dimension). -/
def Field.inBounds (f : Field) (i : Int) : Prop :=
  0 ≤ i ∧ i < (f.dims.headD 1 : Nat)

instance (f : Field) (i : Int) : Decidable (f.inBounds i) := by
  unfold Field.inBounds; infer_instance

/-! ## Layout -/

/-- The least multiple of `a` that is at least `off`. -/
def alignUp (off a : Nat) : Nat := (off + a - 1) / a * a

/-- Offsets of the members of a record whose first member may not start
before `off`. -/
def layoutFrom : Nat → List Field → List (String × Nat)
  | _, [] => []
  | off, f :: fs =>
    (f.name, alignUp off f.ty.align) :: layoutFrom (alignUp off f.ty.align + f.size) fs

/-- The first offset after the last member. -/
def endFrom : Nat → List Field → Nat
  | off, [] => off
  | off, f :: fs => endFrom (alignUp off f.ty.align + f.size) fs

/-- Alignment of a record: the largest alignment of a member. -/
def structAlign (d : List Field) : Nat :=
  d.foldl (fun a f => max a f.ty.align) 1

/-- `sizeof(struct ...)`. -/
def sizeof (d : List Field) : Nat := alignUp (endFrom 0 d) (structAlign d)

/-- `offsetof(struct ..., name)`. -/
def offsetof (d : List Field) (name : String) : Option Nat :=
  (layoutFrom 0 d).lookup name

/-- Bytes of a record that belong to no member. -/
def paddingBytes (d : List Field) : Nat := sizeof d - (d.map Field.size).sum

/-- Padding bytes between the end of the member `a` and the start of the
member `b`. -/
def gapBetween (d : List Field) (a b : String) : Option Nat :=
  match offsetof d a, member d a, offsetof d b with
  | some oa, some fa, some ob => some (ob - (oa + fa.size))
  | _, _, _ => none

/-- The bytes of a record object whose member `name` holds `content name k`
in its `k`-th byte; padding bytes are written as 0. -/
def imageFrom (content : String → Nat → Nat) : Nat → List Field → List Nat
  | _, [] => []
  | off, f :: fs =>
    List.replicate (alignUp off f.ty.align - off) 0
      ++ (List.range f.size).map (content f.name)
      ++ imageFrom content (alignUp off f.ty.align + f.size) fs

/-- The whole object, tail padding included. -/
def image (content : String → Nat → Nat) (d : List Field) : List Nat :=
  imageFrom content 0 d ++ List.replicate (sizeof d - endFrom 0 d) 0

/-! ## Axis status words -/

/-- The thirteen non-zero `axisStatus` constants, in the order of the header. -/
def axisStatusFlags : List Nat :=
  [ MACHINE_RUNNING, MACHINE_PAUSE, MACHINE_RESUME, MACHINE_STOP,
    MACHINE_LIMIT_N, MACHINE_LIMIT_P, MACHINE_HOME_DONE, MACHINE_HOME,
    MACHINE_AUTO_RUN, MACHINE_LIMIT_N_NONE, MACHINE_LIMIT_P_NONE,
    MACHINE_HOME_NONE, MACHINE_HOME_OVERTIME ]

/-- Bitwise OR of a list of words. -/
def orAll (l : List Nat) : Nat := l.foldr (fun c acc => c ||| acc) 0

/-- The test `v & c`, as C code written against the header performs it. -/
def hasFlag (v c : Nat) : Bool := v &&& c != 0

/-- The constants an `axisStatus` word tests positive for. -/
def flagsOf (v : Nat) : List Nat := axisStatusFlags.filter (hasFlag v)

/-! ## Shapes and per-axis arrays -/

/-- The shape of a status record with `n` scalar 32-bit unsigned words between
`realSpeed` and `axisStatus`: 3 floats, 3 floats, the `n` words, 3 unsigned
words, one unsigned word, 20 slots of 30 bytes. -/
def statusShapeWithMasks (n : Nat) : List (CType × List Nat) :=
  [(.float, [3]), (.float, [3])] ++ List.replicate n (.unsignedInt, [])
    ++ [(.unsignedInt, [3]), (.unsignedInt, []), (.char, [20, 30])]

/-- The member `name` of the record `d` is an array of exactly `MAX_AXIS`
elements, and an integer index is inside it exactly when it is an axis index. -/
def isPerAxisArray (d : List Field) (name : String) : Prop :=
  ∃ f, member d name = some f ∧ f.dims = [MAX_AXIS] ∧
    ∀ axis : Int, f.inBounds axis ↔ (0 ≤ axis ∧ axis < 3)

/-! ## Status and parameter codecs -/

/-- Modelled from the spec: the header declares no error values; section 7
names `DecodeError` for malformed or mis-sized record bytes. -/
inductive DecodeError where
  | SizeMismatch
  | NameTooLong
deriving DecidableEq, Repr

/-- Modelled from the spec: `ValidationError`, the semantic violations of a
parameter record (section 4.2). -/
inductive ValidationError where
  | InvalidSoftLimits
  | InvalidAxisCount
deriving DecidableEq, Repr

/-- Modelled from the spec: what a codec operation can fail with. -/
inductive CodecError where
  | decode (e : DecodeError)
  | validation (e : ValidationError)
deriving DecidableEq, Repr

/-- Modelled from the spec: `CommandError`, the refusals of the command
builders (sections 4.3 to 4.5). -/
inductive CommandError where
  | AxisBusy
  | HomeRequiresLimits
  | InvalidStateTransition
  | ModeConflict
  | InvalidParameter
  | InvalidAxisMask
  | ArcGeometryMismatch
deriving DecidableEq, Repr

/-- Modelled from the spec: the typed `MachineStatus` snapshot of section 3,
one component per member of `struct machine_status`.  The header has no typed
view of the record (the library fills an `unsigned char*`).  A `float` is
carried as its 32-bit pattern: the codec moves the four bytes and does no
arithmetic on them.  A file name is the list of its bytes. -/
structure MachineStatus where
  realPos : List Nat
  realSpeed : List Nat
  inputStatus : Nat
  outputStatus : Nat
  limitNStatus : Nat
  limitPStatus : Nat
  machineRunStatus : Nat
  axisStatus : List Nat
  homeStatus : Nat
  files : List (List Nat)
deriving DecidableEq, Repr

/-- Modelled from the spec: the typed `DeviceParams` of section 3, one
component per member of `struct machine_device_para`. -/
structure DeviceParams where
  id : Nat
  baud232 : Nat
  baud485 : Nat
  ip : List Nat
  port : Int
  div : List Int
  lead : List Int
  softLimitMax : List Int
  softLimitMin : List Int
  homeTime : List Int
deriving DecidableEq, Repr

/-- The four bytes of a 32-bit word, least significant first (the byte order
of the x64 target). -/
def encodeU32 (n : Nat) : List Nat :=
  [n % 256, n / 256 % 256, n / 65536 % 256, n / 16777216 % 256]

/-- The word four bytes stand for. -/
def decodeU32 (bs : List Nat) : Nat :=
  bs.getD 0 0 + 256 * bs.getD 1 0 + 65536 * bs.getD 2 0 + 16777216 * bs.getD 3 0

/-- The four bytes of a 32-bit two's-complement integer. -/
def encodeI32 (i : Int) : List Nat := encodeU32 (i % 4294967296).toNat

/-- The signed integer four bytes stand for. -/
def decodeI32 (bs : List Nat) : Int :=
  if decodeU32 bs < 2147483648 then (decodeU32 bs : Int) else (decodeU32 bs : Int) - 4294967296

/-- Exactly `n` entries: missing ones are filled with `d`, surplus ones are
left out (a record has a fixed number of slots). -/
def resize {α : Type} (n : Nat) (d : α) (xs : List α) : List α :=
  (xs ++ List.replicate (n - xs.length) d).take n

/-- Consecutive pieces of `w` bytes, `n` of them. -/
def chunks (w : Nat) : Nat → List Nat → List (List Nat)
  | 0, _ => []
  | n + 1, bs => bs.take w :: chunks w n (bs.drop w)

/-- Bytes of an array of `n` 32-bit words. -/
def encodeU32s (n : Nat) (xs : List Nat) : List Nat :=
  ((resize n 0 xs).map encodeU32).flatten

/-- Bytes of an array of `n` 32-bit integers. -/
def encodeI32s (n : Nat) (xs : List Int) : List Nat :=
  ((resize n 0 xs).map encodeI32).flatten

/-- An array of `n` 32-bit words from its bytes. -/
def decodeU32s (n : Nat) (bs : List Nat) : List Nat := (chunks 4 n bs).map decodeU32

/-- An array of `n` 32-bit integers from its bytes. -/
def decodeI32s (n : Nat) (bs : List Nat) : List Int := (chunks 4 n bs).map decodeI32

/-- Padding of a fixed-width text slot: NUL or space. -/
def isPadding (b : Nat) : Bool := b == 0 || b == 32

/-- Modelled from the spec: "decode trims trailing padding". -/
def trimPadding (bs : List Nat) : List Nat := bs.rdropWhile isPadding

/-- Modelled from the spec: "encode re-pads and fails with
`DecodeError::NameTooLong` if a name exceeds the slot width". -/
def padName (w : Nat) (name : List Nat) : Except CodecError (List Nat) :=
  if name.length > w then .error (.decode .NameTooLong)
  else .ok (name.map (fun b => b % 256) ++ List.replicate (w - name.length) 0)

/-- All the names of a file table padded to their slots; the first name that
does not fit fails the whole table. -/
def padNames (w : Nat) : List (List Nat) → Except CodecError (List (List Nat))
  | [] => .ok []
  | n :: ns =>
    match padName w n with
    | .error e => .error e
    | .ok slot =>
      match padNames w ns with
      | .error e => .error e
      | .ok slots => .ok (slot :: slots)

/-- Bytes `off .. off + len - 1` of a buffer. -/
def slice (bs : List Nat) (off len : Nat) : List Nat := (bs.drop off).take len

/-- The bytes of the member `name` inside the bytes of a record. -/
def fieldBytes (d : List Field) (name : String) (bs : List Nat) : List Nat :=
  match offsetof d name, member d name with
  | some o, some f => slice bs o f.size
  | _, _ => []

/-- The bytes of a record whose member `name` holds the bytes `vals name`. -/
def encodeRecord (d : List Field) (vals : String → List Nat) : List Nat :=
  image (fun name k => (vals name).getD k 0) d

/-- Modelled from the spec: `encode(MachineStatus) -> bytes` of section 4.1;
the header has no such function.  The bytes follow the layout of
`struct machine_status`. -/
def encodeStatus (s : MachineStatus) : Except CodecError (List Nat) :=
  match padNames 30 (resize 20 [] s.files) with
  | .error e => .error e
  | .ok slots =>
    .ok (encodeRecord machine_status (fun name =>
      if name = "realPos" then encodeU32s MAX_AXIS s.realPos
      else if name = "realSpeed" then encodeU32s MAX_AXIS s.realSpeed
      else if name = "inputStatus" then encodeU32 s.inputStatus
      else if name = "outputStatus" then encodeU32 s.outputStatus
      else if name = "limitNStatus" then encodeU32 s.limitNStatus
      else if name = "limitPStatus" then encodeU32 s.limitPStatus
      else if name = "machineRunStatus" then encodeU32 s.machineRunStatus
      else if name = "axisStatus" then encodeU32s MAX_AXIS s.axisStatus
      else if name = "homeStatus" then encodeU32 s.homeStatus
      else if name = "file" then slots.flatten
      else []))

/-- Modelled from the spec: `decode(bytes) -> MachineStatus | DecodeError` of
section 4.1: `SizeMismatch` unless the input has the record size, every bit
pattern is kept, file names lose their trailing padding. -/
def decodeStatus (bs : List Nat) : Except CodecError MachineStatus :=
  if bs.length ≠ sizeof machine_status then .error (.decode .SizeMismatch)
  else .ok {
    realPos := decodeU32s MAX_AXIS (fieldBytes machine_status "realPos" bs)
    realSpeed := decodeU32s MAX_AXIS (fieldBytes machine_status "realSpeed" bs)
    inputStatus := decodeU32 (fieldBytes machine_status "inputStatus" bs)
    outputStatus := decodeU32 (fieldBytes machine_status "outputStatus" bs)
    limitNStatus := decodeU32 (fieldBytes machine_status "limitNStatus" bs)
    limitPStatus := decodeU32 (fieldBytes machine_status "limitPStatus" bs)
    machineRunStatus := decodeU32 (fieldBytes machine_status "machineRunStatus" bs)
    axisStatus := decodeU32s MAX_AXIS (fieldBytes machine_status "axisStatus" bs)
    homeStatus := decodeU32 (fieldBytes machine_status "homeStatus" bs)
    files := (chunks 30 20 (fieldBytes machine_status "file" bs)).map trimPadding }

/-- Modelled from the spec: the encoder of section 4.2, with its two
validations (`InvalidAxisCount` for more than `MAX_AXIS` entries,
`InvalidSoftLimits` for `min > max` on an axis). -/
def encodeParams (p : DeviceParams) : Except CodecError (List Nat) :=
  if [p.div, p.lead, p.softLimitMax, p.softLimitMin, p.homeTime].any
      (fun a => decide (a.length > MAX_AXIS)) then
    .error (.validation .InvalidAxisCount)
  else if (p.softLimitMin.zip p.softLimitMax).any (fun lh => decide (lh.1 > lh.2)) then
    .error (.validation .InvalidSoftLimits)
  else
    match padName 15 p.ip with
    | .error e => .error e
    | .ok ipBytes =>
      .ok (encodeRecord machine_device_para (fun name =>
        if name = "id" then encodeU32 p.id
        else if name = "bound232" then encodeU32 p.baud232
        else if name = "bound485" then encodeU32 p.baud485
        else if name = "ip" then ipBytes
        else if name = "port" then encodeI32 p.port
        else if name = "div" then encodeI32s MAX_AXIS p.div
        else if name = "lead" then encodeI32s MAX_AXIS p.lead
        else if name = "softLimitMax" then encodeI32s MAX_AXIS p.softLimitMax
        else if name = "softLimitMin" then encodeI32s MAX_AXIS p.softLimitMin
        else if name = "homeTime" then encodeI32s MAX_AXIS p.homeTime
        else []))

/-- Modelled from the spec: the decoder of section 4.2. -/
def decodeParams (bs : List Nat) : Except CodecError DeviceParams :=
  if bs.length ≠ sizeof machine_device_para then .error (.decode .SizeMismatch)
  else .ok {
    id := decodeU32 (fieldBytes machine_device_para "id" bs)
    baud232 := decodeU32 (fieldBytes machine_device_para "bound232" bs)
    baud485 := decodeU32 (fieldBytes machine_device_para "bound485" bs)
    ip := trimPadding (fieldBytes machine_device_para "ip" bs)
    port := decodeI32 (fieldBytes machine_device_para "port" bs)
    div := decodeI32s MAX_AXIS (fieldBytes machine_device_para "div" bs)
    lead := decodeI32s MAX_AXIS (fieldBytes machine_device_para "lead" bs)
    softLimitMax := decodeI32s MAX_AXIS (fieldBytes machine_device_para "softLimitMax" bs)
    softLimitMin := decodeI32s MAX_AXIS (fieldBytes machine_device_para "softLimitMin" bs)
    homeTime := decodeI32s MAX_AXIS (fieldBytes machine_device_para "homeTime" bs) }

/-- A text that fits a slot of `w` bytes and that decoding gives back: bytes
only, and no padding character at its end. -/
def validName (w : Nat) (n : List Nat) : Prop :=
  n.length ≤ w ∧ (∀ b ∈ n, b < 256) ∧ trimPadding n = n

instance (w : Nat) (n : List Nat) : Decidable (validName w n) := by
  unfold validName; infer_instance

/-- An array of `MAX_AXIS` 32-bit words. -/
def validWords (xs : List Nat) : Prop :=
  xs.length = MAX_AXIS ∧ ∀ x ∈ xs, x < 4294967296

instance (xs : List Nat) : Decidable (validWords xs) := by
  unfold validWords; infer_instance

/-- An array of `MAX_AXIS` 32-bit integers. -/
def validInts (xs : List Int) : Prop :=
  xs.length = MAX_AXIS ∧ ∀ x ∈ xs, -2147483648 ≤ x ∧ x < 2147483648

instance (xs : List Int) : Decidable (validInts xs) := by
  unfold validInts; infer_instance

/-- A `MachineStatus` the record can hold: `MAX_AXIS` entries per axis array,
32-bit words, 20 file names that fit their slots. -/
def MachineStatus.valid (s : MachineStatus) : Prop :=
  validWords s.realPos ∧ validWords s.realSpeed ∧
  s.inputStatus < 4294967296 ∧ s.outputStatus < 4294967296 ∧
  s.limitNStatus < 4294967296 ∧ s.limitPStatus < 4294967296 ∧
  s.machineRunStatus < 4294967296 ∧ validWords s.axisStatus ∧
  s.homeStatus < 4294967296 ∧
  s.files.length = 20 ∧ ∀ n ∈ s.files, validName 30 n

instance (s : MachineStatus) : Decidable s.valid := by
  unfold MachineStatus.valid; infer_instance

/-- A `DeviceParams` the record can hold and the encoder accepts: the
invariant `softLimitMin[axis] ≤ softLimitMax[axis]` of section 3 holds. -/
def DeviceParams.valid (p : DeviceParams) : Prop :=
  p.id < 4294967296 ∧ p.baud232 < 4294967296 ∧ p.baud485 < 4294967296 ∧
  validName 15 p.ip ∧ (-2147483648 ≤ p.port ∧ p.port < 2147483648) ∧
  validInts p.div ∧ validInts p.lead ∧ validInts p.softLimitMax ∧
  validInts p.softLimitMin ∧ validInts p.homeTime ∧
  ∀ lh ∈ p.softLimitMin.zip p.softLimitMax, lh.1 ≤ lh.2

instance (p : DeviceParams) : Decidable p.valid := by
  unfold DeviceParams.valid; infer_instance


/-! ## Command builders -/

/-- Modelled from the spec: the closed set of axis selections of section 9,
"{X, Y, Z, XY, XZ, YZ, XYZ} ... rather than accepting an arbitrary bitmask".
The header passes the selection as a plain `unsigned int axis`. -/
inductive AxisSel where
  | X
  | Y
  | Z
  | XY
  | XZ
  | YZ
  | XYZ
deriving DecidableEq, Repr

/-- Modelled from the spec: the selection a mask stands for, one bit per axis
(0x01 = X, 0x02 = Y, 0x04 = Z); a mask outside the closed set stands for none. -/
def AxisSel.ofMask (mask : Nat) : Option AxisSel :=
  if mask = 0x01 then some .X
  else if mask = 0x02 then some .Y
  else if mask = 0x04 then some .Z
  else if mask = 0x03 then some .XY
  else if mask = 0x05 then some .XZ
  else if mask = 0x06 then some .YZ
  else if mask = 0x07 then some .XYZ
  else none

/-- The axis indices of a selection. -/
def AxisSel.axes : AxisSel → List Nat
  | .X => [0]
  | .Y => [1]
  | .Z => [2]
  | .XY => [0, 1]
  | .XZ => [0, 2]
  | .YZ => [1, 2]
  | .XYZ => [0, 1, 2]

/-- The axes whose bit is set in a mask, among the `MAX_AXIS` axes. -/
def selectedAxes (mask : Nat) : List Nat :=
  (List.range MAX_AXIS).filter (fun i => mask.testBit i)

/-- Modelled from the spec: the `MotionCommand` variant of section 3, with the
variant the 2-axis line builder produces.  Coordinates and rates are `float`
arguments of `FMC4030_Line_2Axis`, carried as 32-bit patterns. -/
inductive MotionCommand where
  | Line2Axis (sel : AxisSel) (endX endY speed acc dec : Nat)
deriving DecidableEq, Repr

/-- A 32-bit pattern is a finite `float`: its exponent field is not all ones. -/
def isFiniteF32 (x : Nat) : Bool := x / 8388608 % 256 != 255

/-- Modelled from the spec: section 4.3, an axis of the selection is
`Running` or `Homing`. -/
def axisBusy (status : MachineStatus) (sel : AxisSel) : Bool :=
  sel.axes.any (fun i =>
    hasFlag (status.axisStatus.getD i 0) MACHINE_RUNNING
      || hasFlag (status.axisStatus.getD i 0) MACHINE_HOME)

/-- Modelled from the spec: the `Line2Axis` builder of section 4.4; the
header only declares `FMC4030_Line_2Axis`, whose body is in the vendor
binary.  The mask is read first (the axes it names are needed by the later
checks): it "must select exactly 2 ... axes, else
`CommandError::InvalidAxisMask`"; then "end coordinates finite"; then the
`AxisBusy` gate of section 4.3. -/
def buildLine2Axis (status : MachineStatus) (axisMask endX endY speed acc dec : Nat) :
    Except CommandError MotionCommand :=
  match AxisSel.ofMask axisMask with
  | none => .error .InvalidAxisMask
  | some sel =>
    if sel.axes.length ≠ 2 then .error .InvalidAxisMask
    else if !(isFiniteF32 endX && isFiniteF32 endY) then .error .InvalidParameter
    else if axisBusy status sel then .error .AxisBusy
    else .ok (.Line2Axis sel endX endY speed acc dec)

/-- Modelled from the spec: a `SubBusFrame` request of section 3 (function
code, slave id, register/coil address, optional payload). -/
structure SubBusFrame where
  functionCode : Nat
  slaveId : Nat
  address : Nat
  payload : List Nat
deriving DecidableEq, Repr

/-- Modelled from the spec: write single coil (function 05) of section 4.5,
"value constrained to boolean-as-word (0x0000 or 0xFF00/1 per convention);
fails with `CommandError::InvalidParameter` for any other value".  The header
only declares `FMC4030_MB05_Operation`. -/
def writeSingleCoil (slaveId addr val : Nat) : Except CommandError SubBusFrame :=
  if val = 0x0000 ∨ val = 0xFF00 ∨ val = 1 then
    .ok { functionCode := 5, slaveId := slaveId, address := addr, payload := [val] }
  else .error .InvalidParameter

/-! ## Sample values -/

/-- A status snapshot: axis 0 running with homing done, axis 1 timed out,
axis 2 powered on; two files in the table. -/
def sampleStatus : MachineStatus :=
  { realPos := [0x3F800000, 0, 0xC0490FDB], realSpeed := [0, 0x7FC00000, 1],
    inputStatus := 5, outputStatus := 0xFFFFFFFF, limitNStatus := 0, limitPStatus := 2,
    machineRunStatus := 1, axisStatus := [0x41, 0x1000, 0], homeStatus := 1,
    files := [112, 114, 111, 103, 46, 98, 105, 110] :: [97, 32, 98] :: List.replicate 18 [] }

/-- The sample snapshot with every axis powered on and idle. -/
def idleStatus : MachineStatus := { sampleStatus with axisStatus := [0, 0, 0] }

/-- A parameter record (address 192.168.0.30, port 8088). -/
def sampleParams : DeviceParams :=
  { id := 0, baud232 := 115200, baud485 := 9600,
    ip := [49, 57, 50, 46, 49, 54, 56, 46, 48, 46, 51, 48],
    port := 8088, div := [1600, 1600, 3200], lead := [5, 5, -1],
    softLimitMax := [1000, 50, 0], softLimitMin := [-1000, 50, -2147483648],
    homeTime := [30, 30, 60] }

/-! # Theorems -/

/-! ## Helper lemmas for the axis status words -/

theorem orAll_cons (c : Nat) (l : List Nat) : orAll (c :: l) = c ||| orAll l := rfl

theorem and_orAll (v : Nat) (l : List Nat) :
    v &&& orAll l = orAll (l.map (fun c => v &&& c)) := by
  induction l with
  | nil => simp [orAll]
  | cons c l ih => simp [orAll_cons, Nat.and_or_distrib_left, ih]

theorem orAll_map_select (p : Nat → Bool) (l : List Nat) :
    orAll (l.map (fun c => if p c then c else 0)) = orAll (l.filter p) := by
  induction l with
  | nil => rfl
  | cons c l ih =>
    by_cases h : p c
    · simp [List.filter_cons, h, orAll_cons, ih]
    · simp [List.filter_cons, h, orAll_cons, ih]

theorem and_single_bit (v k : Nat) :
    v &&& 2 ^ k = if hasFlag v (2 ^ k) then 2 ^ k else 0 := by
  unfold hasFlag
  rw [Nat.and_two_pow]
  cases v.testBit k <;> simp

theorem mem_axisStatusFlags (c : Nat) :
    c ∈ axisStatusFlags ↔ ∃ k, k < 13 ∧ c = 2 ^ k := by
  constructor
  · intro h
    simp only [axisStatusFlags, List.mem_cons, List.mem_singleton, List.not_mem_nil,
      or_false] at h
    rcases h with h | h | h | h | h | h | h | h | h | h | h | h | h
    · exact ⟨0, by decide, h⟩
    · exact ⟨1, by decide, h⟩
    · exact ⟨2, by decide, h⟩
    · exact ⟨3, by decide, h⟩
    · exact ⟨4, by decide, h⟩
    · exact ⟨5, by decide, h⟩
    · exact ⟨6, by decide, h⟩
    · exact ⟨7, by decide, h⟩
    · exact ⟨8, by decide, h⟩
    · exact ⟨9, by decide, h⟩
    · exact ⟨10, by decide, h⟩
    · exact ⟨11, by decide, h⟩
    · exact ⟨12, by decide, h⟩
  · rintro ⟨k, hk, rfl⟩
    interval_cases k <;> decide

theorem orAll_axisStatusFlags : orAll axisStatusFlags = 2 ^ 13 - 1 := by decide

theorem orAll_flagsOf (v : Nat) (hv : v < 0x2000) : orAll (flagsOf v) = v := by
  have h1 : v &&& orAll axisStatusFlags = v := by
    rw [orAll_axisStatusFlags]
    exact Nat.and_pow_two_sub_one_of_lt_two_pow (by simpa using hv)
  have h2 : axisStatusFlags.map (fun c => v &&& c)
      = axisStatusFlags.map (fun c => if hasFlag v c then c else 0) := by
    apply List.map_congr_left
    intro c hc
    obtain ⟨k, -, rfl⟩ := (mem_axisStatusFlags c).1 hc
    exact and_single_bit v k
  rw [flagsOf, ← orAll_map_select, ← h2, ← and_orAll, h1]

theorem axisStatusFlags_disjoint :
    ∀ a ∈ axisStatusFlags, ∀ b ∈ axisStatusFlags, a ≠ b → a &&& b = 0 := by decide

theorem axisStatusFlags_ne_zero : ∀ a ∈ axisStatusFlags, a ≠ 0 := by decide

theorem axisStatusFlags_nodup : axisStatusFlags.Nodup := by decide

theorem orAll_and_flag (l : List Nat) (hl : l.Nodup) (hsub : ∀ a ∈ l, a ∈ axisStatusFlags)
    (c : Nat) (hc : c ∈ axisStatusFlags) :
    orAll l &&& c = if c ∈ l then c else 0 := by
  induction l with
  | nil => simp [orAll]
  | cons a l ih =>
    have hnd := List.nodup_cons.1 hl
    have ih2 := ih hnd.2 (fun x hx => hsub x (List.mem_cons_of_mem _ hx))
    rw [orAll_cons, Nat.and_comm, Nat.and_or_distrib_left, Nat.and_comm c (orAll l), ih2]
    by_cases hac : c = a
    · subst hac
      simp [hnd.1]
    · have : c &&& a = 0 :=
        axisStatusFlags_disjoint c hc a (hsub a (List.mem_cons_self _ _)) hac
      simp [this, hac]

theorem filter_mem_of_sublist {l fs : List Nat} (h : List.Sublist l fs) (hnd : fs.Nodup) :
    fs.filter (fun c => decide (c ∈ l)) = l := by
  induction h with
  | slnil => rfl
  | @cons l fs a h ih =>
    have hnd2 := List.nodup_cons.1 hnd
    have : a ∉ l := fun ha => hnd2.1 (h.subset ha)
    simp [List.filter_cons, this, ih hnd2.2]
  | @cons₂ l fs a h ih =>
    have hnd2 := List.nodup_cons.1 hnd
    simp only [List.filter_cons, List.mem_cons, true_or, decide_True, if_true]
    congr 1
    rw [← ih hnd2.2]
    apply List.filter_congr
    intro x hx
    have : x ≠ a := fun e => hnd2.1 (e ▸ hx)
    simp [this, ih hnd2.2]

theorem flagsOf_orAll {l : List Nat} (h : List.Sublist l axisStatusFlags) :
    flagsOf (orAll l) = l := by
  have hnd : l.Nodup := h.nodup axisStatusFlags_nodup
  have hstep : flagsOf (orAll l) = axisStatusFlags.filter (fun c => decide (c ∈ l)) := by
    rw [flagsOf]
    apply List.filter_congr
    intro c hc
    have hand := orAll_and_flag l hnd (fun a ha => h.subset ha) c hc
    have hc0 := axisStatusFlags_ne_zero c hc
    unfold hasFlag
    rw [hand]
    by_cases hm : c ∈ l <;> simp [hm, hc0]
  rw [hstep, filter_mem_of_sublist h axisStatusFlags_nodup]

/-! ## Helper lemmas for the record image -/

theorem le_alignUp (off a : Nat) (ha : 0 < a) : off ≤ alignUp off a := by
  unfold alignUp
  have h1 := Nat.div_add_mod (off + a - 1) a
  have h2 := Nat.mod_lt (off + a - 1) ha
  rw [Nat.mul_comm] at h1
  omega

theorem CType.align_pos (t : CType) : 0 < t.align := by
  cases t <;> decide

theorem map_getD_range (l : List Nat) (n : Nat) (h : l.length = n) :
    (List.range n).map (fun k => l.getD k 0) = l := by
  subst h
  apply List.ext_getElem
  · simp
  · intro i h1 h2
    simp at h1
    simp [List.getD_eq_getElem?_getD, List.getElem?_eq_getElem h2]

theorem slice_append_mid (a m r t : List Nat) (k n : Nat) (ha : a.length = k)
    (hm : m.length = n) : slice (a ++ m ++ r ++ t) k n = m := by
  unfold slice
  rw [List.append_assoc, List.append_assoc, List.drop_left' ha, List.take_left' hm]

theorem slice_append_skip (a m r t : List Nat) (j k n : Nat)
    (hj : j = a.length + m.length + k) :
    slice (a ++ m ++ r ++ t) j n = slice (r ++ t) k n := by
  unfold slice
  subst hj
  rw [List.append_assoc (a ++ m), ← List.length_append, List.drop_append]

theorem slice_imageFrom (vals : String → List Nat) (name : String) (f : Field)
    (hlen : (vals name).length = f.size) :
    ∀ (d : List Field) (off o : Nat) (tail : List Nat),
      (layoutFrom off d).lookup name = some o → member d name = some f →
      off ≤ o ∧
        slice (imageFrom (fun nm k => (vals nm).getD k 0) off d ++ tail) (o - off) f.size
          = vals name := by
  intro d
  induction d with
  | nil => intro off o tail h; simp [layoutFrom] at h
  | cons g gs ih =>
    intro off o tail hl hm
    have hal := le_alignUp off g.ty.align (CType.align_pos g.ty)
    by_cases hn : g.name = name
    · have ho : alignUp off g.ty.align = o := by
        simpa [layoutFrom, List.lookup, hn] using hl
      have hf : g = f := by
        simpa [member, List.find?, hn] using hm
      subst hf
      refine ⟨by omega, ?_⟩
      rw [imageFrom, hn, map_getD_range _ _ hlen, ← ho]
      exact slice_append_mid _ _ _ _ _ _ (by simp) hlen
    · have hn2 : (name == g.name) = false := beq_eq_false_iff_ne.2 (fun e => hn e.symm)
      have hn3 : (g.name == name) = false := beq_eq_false_iff_ne.2 hn
      have hl2 : (layoutFrom (alignUp off g.ty.align + g.size) gs).lookup name = some o := by
        simpa [layoutFrom, List.lookup, hn2] using hl
      have hm2 : member gs name = some f := by
        simpa [member, List.find?, hn3] using hm
      obtain ⟨hle, hs⟩ := ih (alignUp off g.ty.align + g.size) o tail hl2 hm2
      refine ⟨by omega, ?_⟩
      rw [imageFrom, ← hs]
      apply slice_append_skip
      simp
      omega

theorem fieldBytes_encodeRecord (d : List Field) (vals : String → List Nat) (name : String)
    (f : Field) (o : Nat) (ho : offsetof d name = some o) (hm : member d name = some f)
    (hlen : (vals name).length = f.size) :
    fieldBytes d name (encodeRecord d vals) = vals name := by
  have h := (slice_imageFrom vals name f hlen d 0 o
    (List.replicate (sizeof d - endFrom 0 d) 0) ho hm).2
  simp only [fieldBytes, ho, hm, encodeRecord, image]
  simpa using h

/-! ## Helper lemmas for the codecs -/

theorem resize_eq {α : Type} (n : Nat) (d : α) (xs : List α) (h : xs.length = n) :
    resize n d xs = xs := by
  subst h
  simp [resize]

theorem decodeU32_encodeU32 (n : Nat) (h : n < 4294967296) : decodeU32 (encodeU32 n) = n := by
  simp only [decodeU32, encodeU32, List.getD_cons_zero, List.getD_cons_succ]
  omega

theorem decodeI32_encodeI32 (i : Int) (h1 : -2147483648 ≤ i) (h2 : i < 2147483648) :
    decodeI32 (encodeI32 i) = i := by
  have hb : (i % 4294967296).toNat < 4294967296 := by omega
  unfold decodeI32 encodeI32
  rw [decodeU32_encodeU32 _ hb]
  split <;> omega

theorem encodeU32_length (n : Nat) : (encodeU32 n).length = 4 := rfl

theorem encodeI32_length (i : Int) : (encodeI32 i).length = 4 := rfl

theorem flatten_length_const (w : Nat) (ls : List (List Nat)) (h : ∀ l ∈ ls, l.length = w) :
    ls.flatten.length = w * ls.length := by
  induction ls with
  | nil => simp
  | cons l ls ih =>
    have h1 := h l (List.mem_cons_self _ _)
    have h2 := ih (fun x hx => h x (List.mem_cons_of_mem _ hx))
    simp [h1, h2, Nat.mul_succ]
    omega

theorem chunks_flatten (w : Nat) (ls : List (List Nat)) (h : ∀ l ∈ ls, l.length = w) :
    chunks w ls.length ls.flatten = ls := by
  induction ls with
  | nil => simp [chunks]
  | cons l ls ih =>
    have h1 := h l (List.mem_cons_self _ _)
    have h2 := ih (fun x hx => h x (List.mem_cons_of_mem _ hx))
    simp [chunks, List.take_left' h1, List.drop_left' h1, h2]

theorem encodeU32s_length (n : Nat) (xs : List Nat) (h : xs.length = n) :
    (encodeU32s n xs).length = 4 * n := by
  rw [encodeU32s, resize_eq n 0 xs h, flatten_length_const 4]
  · simp [h]
  · intro l hl
    obtain ⟨x, -, rfl⟩ := List.mem_map.1 hl
    rfl

theorem encodeI32s_length (n : Nat) (xs : List Int) (h : xs.length = n) :
    (encodeI32s n xs).length = 4 * n := by
  rw [encodeI32s, resize_eq n 0 xs h, flatten_length_const 4]
  · simp [h]
  · intro l hl
    obtain ⟨x, -, rfl⟩ := List.mem_map.1 hl
    rfl

theorem decodeU32s_encodeU32s (n : Nat) (xs : List Nat) (h : xs.length = n)
    (hb : ∀ x ∈ xs, x < 4294967296) : decodeU32s n (encodeU32s n xs) = xs := by
  have hc := chunks_flatten 4 (xs.map encodeU32) (by
    intro l hl
    obtain ⟨x, -, rfl⟩ := List.mem_map.1 hl
    rfl)
  rw [List.length_map, h] at hc
  rw [decodeU32s, encodeU32s, resize_eq n 0 xs h, hc, List.map_map]
  conv => rhs; rw [← List.map_id xs]
  apply List.map_congr_left
  intro x hx
  exact decodeU32_encodeU32 x (hb x hx)

theorem decodeI32s_encodeI32s (n : Nat) (xs : List Int) (h : xs.length = n)
    (hb : ∀ x ∈ xs, -2147483648 ≤ x ∧ x < 2147483648) :
    decodeI32s n (encodeI32s n xs) = xs := by
  have hc := chunks_flatten 4 (xs.map encodeI32) (by
    intro l hl
    obtain ⟨x, -, rfl⟩ := List.mem_map.1 hl
    rfl)
  rw [List.length_map, h] at hc
  rw [decodeI32s, encodeI32s, resize_eq n 0 xs h, hc, List.map_map]
  conv => rhs; rw [← List.map_id xs]
  apply List.map_congr_left
  intro x hx
  exact decodeI32_encodeI32 x (hb x hx).1 (hb x hx).2

theorem trimPadding_append_zeros (n : List Nat) (k : Nat) :
    trimPadding (n ++ List.replicate k 0) = trimPadding n := by
  induction k with
  | zero => simp
  | succ k ih =>
    rw [List.replicate_succ', ← List.append_assoc]
    unfold trimPadding at ih ⊢
    rw [List.rdropWhile_concat_pos _ _ _ (by decide), ih]

theorem padName_ok (w : Nat) (n : List Nat) (h : validName w n) :
    padName w n = .ok (n ++ List.replicate (w - n.length) 0) := by
  obtain ⟨h1, h2, -⟩ := h
  have hmap : n.map (fun b => b % 256) = n := by
    conv => rhs; rw [← List.map_id n]
    apply List.map_congr_left
    intro b hb
    exact Nat.mod_eq_of_lt (h2 b hb)
  simp [padName, hmap, Nat.not_lt.2 h1]

theorem padName_length (w : Nat) (n : List Nat) (h : n.length ≤ w) :
    (n ++ List.replicate (w - n.length) 0).length = w := by
  simp; omega

theorem padNames_ok (w : Nat) (ns : List (List Nat)) (h : ∀ n ∈ ns, validName w n) :
    padNames w ns = .ok (ns.map (fun n => n ++ List.replicate (w - n.length) 0)) := by
  induction ns with
  | nil => rfl
  | cons n ns ih =>
    have h1 := padName_ok w n (h n (List.mem_cons_self _ _))
    have h2 := ih (fun x hx => h x (List.mem_cons_of_mem _ hx))
    simp [padNames, h1, h2]

theorem encodeRecord_status_length (vals : String → List Nat) :
    (encodeRecord machine_status vals).length = sizeof machine_status := by
  simp [encodeRecord, image, imageFrom, machine_status, Field.size, Field.count, CType.size,
    CType.align, alignUp, MAX_AXIS, sizeof, endFrom, structAlign]

theorem encodeRecord_para_length (vals : String → List Nat) :
    (encodeRecord machine_device_para vals).length = sizeof machine_device_para := by
  simp [encodeRecord, image, imageFrom, machine_device_para, Field.size, Field.count,
    CType.size, CType.align, alignUp, MAX_AXIS, sizeof, endFrom, structAlign]

theorem slots_length (w : Nat) (ns : List (List Nat)) (h : ∀ n ∈ ns, validName w n) :
    ((ns.map (fun n => n ++ List.replicate (w - n.length) 0)).flatten).length
      = w * ns.length := by
  rw [flatten_length_const w, List.length_map]
  intro l hl
  obtain ⟨n, hn, rfl⟩ := List.mem_map.1 hl
  exact padName_length w n (h n hn).1

theorem slots_decode (w k : Nat) (ns : List (List Nat)) (hk : ns.length = k)
    (h : ∀ n ∈ ns, validName w n) :
    (chunks w k ((ns.map (fun n => n ++ List.replicate (w - n.length) 0)).flatten)).map
      trimPadding = ns := by
  have hc := chunks_flatten w (ns.map (fun n => n ++ List.replicate (w - n.length) 0)) (by
    intro l hl
    obtain ⟨n, hn, rfl⟩ := List.mem_map.1 hl
    exact padName_length w n (h n hn).1)
  rw [List.length_map, hk] at hc
  rw [hc, List.map_map]
  conv => rhs; rw [← List.map_id ns]
  apply List.map_congr_left
  intro n hn
  simp only [Function.comp, id]
  rw [trimPadding_append_zeros, (h n hn).2.2]

theorem decodeStatus_encodeStatus (s : MachineStatus) (h : s.valid) :
    ∃ bs, encodeStatus s = .ok bs ∧ bs.length = sizeof machine_status ∧
      decodeStatus bs = .ok s := by
  obtain ⟨hrp, hrs, hin, hout, hln, hlp, hmr, hax, hhs, hfl, hfn⟩ := h
  unfold encodeStatus
  rw [resize_eq 20 [] s.files hfl, padNames_ok 30 s.files hfn]
  refine ⟨_, rfl, encodeRecord_status_length _, ?_⟩
  unfold decodeStatus
  rw [if_neg (by simp [encodeRecord_status_length])]
  congr 1
  cases s with
  | mk realPos realSpeed inputStatus outputStatus limitNStatus limitPStatus machineRunStatus
      axisStatus homeStatus files =>
    simp only at hrp hrs hin hout hln hlp hmr hax hhs hfl hfn ⊢
    rw [fieldBytes_encodeRecord machine_status _ "realPos" ⟨"realPos", .float, [MAX_AXIS]⟩ 0
          rfl rfl (by simpa using encodeU32s_length MAX_AXIS realPos hrp.1),
      fieldBytes_encodeRecord machine_status _ "realSpeed" ⟨"realSpeed", .float, [MAX_AXIS]⟩ 12
          rfl rfl (by simpa using encodeU32s_length MAX_AXIS realSpeed hrs.1),
      fieldBytes_encodeRecord machine_status _ "inputStatus" ⟨"inputStatus", .unsignedInt, []⟩
          24 rfl rfl (by simp [encodeU32_length, Field.size, Field.count, CType.size]),
      fieldBytes_encodeRecord machine_status _ "outputStatus"
          ⟨"outputStatus", .unsignedInt, []⟩ 28 rfl rfl
          (by simp [encodeU32_length, Field.size, Field.count, CType.size]),
      fieldBytes_encodeRecord machine_status _ "limitNStatus"
          ⟨"limitNStatus", .unsignedInt, []⟩ 32 rfl rfl
          (by simp [encodeU32_length, Field.size, Field.count, CType.size]),
      fieldBytes_encodeRecord machine_status _ "limitPStatus"
          ⟨"limitPStatus", .unsignedInt, []⟩ 36 rfl rfl
          (by simp [encodeU32_length, Field.size, Field.count, CType.size]),
      fieldBytes_encodeRecord machine_status _ "machineRunStatus"
          ⟨"machineRunStatus", .unsignedInt, []⟩ 40 rfl rfl
          (by simp [encodeU32_length, Field.size, Field.count, CType.size]),
      fieldBytes_encodeRecord machine_status _ "axisStatus"
          ⟨"axisStatus", .unsignedInt, [MAX_AXIS]⟩ 44 rfl rfl
          (by simpa using encodeU32s_length MAX_AXIS axisStatus hax.1),
      fieldBytes_encodeRecord machine_status _ "homeStatus" ⟨"homeStatus", .unsignedInt, []⟩
          56 rfl rfl (by simp [encodeU32_length, Field.size, Field.count, CType.size]),
      fieldBytes_encodeRecord machine_status _ "file" ⟨"file", .char, [20, 30]⟩ 60 rfl rfl
          (by simpa [hfl] using slots_length 30 files hfn)]
    simp only [String.reduceEq, if_true, if_false, reduceIte]
    rw [decodeU32s_encodeU32s _ _ hrp.1 hrp.2, decodeU32s_encodeU32s _ _ hrs.1 hrs.2,
      decodeU32s_encodeU32s _ _ hax.1 hax.2, decodeU32_encodeU32 _ hin,
      decodeU32_encodeU32 _ hout, decodeU32_encodeU32 _ hln, decodeU32_encodeU32 _ hlp,
      decodeU32_encodeU32 _ hmr, decodeU32_encodeU32 _ hhs, slots_decode 30 20 files hfl hfn]

theorem decodeParams_encodeParams (p : DeviceParams) (h : p.valid) :
    ∃ bs, encodeParams p = .ok bs ∧ bs.length = sizeof machine_device_para ∧
      decodeParams bs = .ok p := by
  obtain ⟨hid, h232, h485, hip, hport, hdiv, hlead, hmax, hmin, hhome, hlim⟩ := h
  have hcount : [p.div, p.lead, p.softLimitMax, p.softLimitMin, p.homeTime].any
      (fun a => decide (a.length > MAX_AXIS)) = false := by
    simp [hdiv.1, hlead.1, hmax.1, hmin.1, hhome.1]
  have hsoft : (p.softLimitMin.zip p.softLimitMax).any (fun lh => decide (lh.1 > lh.2))
      = false := by
    rw [List.any_eq_false]
    intro lh hlh
    have := hlim lh hlh
    simp only [gt_iff_lt, decide_eq_true_eq, not_lt]
    exact this
  unfold encodeParams
  rw [hcount, hsoft, padName_ok 15 p.ip hip]
  refine ⟨_, rfl, encodeRecord_para_length _, ?_⟩
  unfold decodeParams
  rw [if_neg (by simp [encodeRecord_para_length])]
  congr 1
  cases p with
  | mk id baud232 baud485 ip port div lead softLimitMax softLimitMin homeTime =>
    simp only at hid h232 h485 hip hport hdiv hlead hmax hmin hhome ⊢
    rw [fieldBytes_encodeRecord machine_device_para _ "id" ⟨"id", .unsignedInt, []⟩ 0
          rfl rfl (by simp [encodeU32_length, Field.size, Field.count, CType.size]),
      fieldBytes_encodeRecord machine_device_para _ "bound232"
          ⟨"bound232", .unsignedInt, []⟩ 4 rfl rfl
          (by simp [encodeU32_length, Field.size, Field.count, CType.size]),
      fieldBytes_encodeRecord machine_device_para _ "bound485"
          ⟨"bound485", .unsignedInt, []⟩ 8 rfl rfl
          (by simp [encodeU32_length, Field.size, Field.count, CType.size]),
      fieldBytes_encodeRecord machine_device_para _ "ip" ⟨"ip", .char, [15]⟩ 12 rfl rfl
          (by simpa [Field.size, Field.count, CType.size] using padName_length 15 ip hip.1),
      fieldBytes_encodeRecord machine_device_para _ "port" ⟨"port", .int, []⟩ 28 rfl rfl
          (by simp [encodeI32_length, Field.size, Field.count, CType.size]),
      fieldBytes_encodeRecord machine_device_para _ "div" ⟨"div", .int, [MAX_AXIS]⟩ 32
          rfl rfl (by simpa using encodeI32s_length MAX_AXIS div hdiv.1),
      fieldBytes_encodeRecord machine_device_para _ "lead" ⟨"lead", .int, [MAX_AXIS]⟩ 44
          rfl rfl (by simpa using encodeI32s_length MAX_AXIS lead hlead.1),
      fieldBytes_encodeRecord machine_device_para _ "softLimitMax"
          ⟨"softLimitMax", .int, [MAX_AXIS]⟩ 56 rfl rfl
          (by simpa using encodeI32s_length MAX_AXIS softLimitMax hmax.1),
      fieldBytes_encodeRecord machine_device_para _ "softLimitMin"
          ⟨"softLimitMin", .int, [MAX_AXIS]⟩ 68 rfl rfl
          (by simpa using encodeI32s_length MAX_AXIS softLimitMin hmin.1),
      fieldBytes_encodeRecord machine_device_para _ "homeTime"
          ⟨"homeTime", .int, [MAX_AXIS]⟩ 80 rfl rfl
          (by simpa using encodeI32s_length MAX_AXIS homeTime hhome.1)]
    simp only [String.reduceEq, if_true, if_false, reduceIte]
    rw [decodeU32_encodeU32 _ hid, decodeU32_encodeU32 _ h232, decodeU32_encodeU32 _ h485,
      trimPadding_append_zeros, hip.2.2, decodeI32_encodeI32 _ hport.1 hport.2,
      decodeI32s_encodeI32s _ _ hdiv.1 hdiv.2, decodeI32s_encodeI32s _ _ hlead.1 hlead.2,
      decodeI32s_encodeI32s _ _ hmax.1 hmax.2, decodeI32s_encodeI32s _ _ hmin.1 hmin.2,
      decodeI32s_encodeI32s _ _ hhome.1 hhome.2]

/-- A name that ends in a padding character fits its slot and is encoded, but
decoding gives the trimmed name: validity of a name has to exclude trailing
padding for the round trip to hold. -/
theorem trailing_padding_not_preserved :
    padName 30 [97, 32] = .ok ([97, 32] ++ List.replicate 28 0) ∧
    trimPadding ([97, 32] ++ List.replicate 28 0) = [97] ∧
    ¬ validName 30 [97, 32] :=
  ⟨rfl, by decide, by decide⟩

/-- A buffer that has not the record size is refused by both decoders. -/
theorem decode_size_mismatch (bs : List Nat) :
    (bs.length ≠ sizeof machine_status →
      decodeStatus bs = .error (.decode .SizeMismatch)) ∧
    (bs.length ≠ sizeof machine_device_para →
      decodeParams bs = .error (.decode .SizeMismatch)) := by
  constructor
  · intro h
    simp [decodeStatus, h]
  · intro h
    simp [decodeParams, h]

/-! ## Helper lemmas for the command builders -/

theorem two_axis_masks (mask : Nat) :
    (mask = 0x03 ∨ mask = 0x05 ∨ mask = 0x06) ↔
      (mask < 2 ^ MAX_AXIS ∧ (selectedAxes mask).length = 2) := by
  constructor
  · rintro (h | h | h) <;> subst h <;> decide
  · rintro ⟨h1, h2⟩
    have h8 : mask < 8 := h1
    interval_cases mask <;> revert h2 <;> decide

theorem ofMask_two_axes (mask : Nat) (sel : AxisSel) (h : AxisSel.ofMask mask = some sel)
    (h2 : sel.axes.length = 2) : mask = 0x03 ∨ mask = 0x05 ∨ mask = 0x06 := by
  unfold AxisSel.ofMask at h
  split_ifs at h with h1 h2 h3 h4 h5 h6 h7
  all_goals first
    | (left; assumption)
    | (right; left; assumption)
    | (right; right; assumption)
    | (cases h; simp [AxisSel.axes] at h2)

theorem buildLine2Axis_bad_mask (status : MachineStatus) (mask endX endY speed acc dec : Nat)
    (hm : ¬ (mask = 0x03 ∨ mask = 0x05 ∨ mask = 0x06)) :
    buildLine2Axis status mask endX endY speed acc dec = .error .InvalidAxisMask := by
  unfold buildLine2Axis
  cases hsel : AxisSel.ofMask mask with
  | none => rfl
  | some sel =>
    have hlen : sel.axes.length ≠ 2 := fun h2 => hm (ofMask_two_axes mask sel hsel h2)
    simp [hlen]

/-! ## The claims -/

/-- C1: the status constants of the header have the listed values:
`MACHINE_MANUAL` 0x0001 and `MACHINE_AUTO` 0x0002 for the run mode, and for
the axis status `MACHINE_POWER_ON` 0x0000, `MACHINE_RUNNING` 0x0001,
`MACHINE_PAUSE` 0x0002, `MACHINE_RESUME` 0x0004, `MACHINE_STOP` 0x0008,
`MACHINE_LIMIT_N` 0x0010, `MACHINE_LIMIT_P` 0x0020, `MACHINE_HOME_DONE` 0x0040,
`MACHINE_HOME` 0x0080, `MACHINE_AUTO_RUN` 0x0100, `MACHINE_LIMIT_N_NONE` 0x0200,
`MACHINE_LIMIT_P_NONE` 0x0400, `MACHINE_HOME_NONE` 0x0800,
`MACHINE_HOME_OVERTIME` 0x1000. -/
theorem status_constants_values :
    MACHINE_MANUAL = 0x0001 ∧ MACHINE_AUTO = 0x0002 ∧
    MACHINE_POWER_ON = 0x0000 ∧ MACHINE_RUNNING = 0x0001 ∧ MACHINE_PAUSE = 0x0002 ∧
    MACHINE_RESUME = 0x0004 ∧ MACHINE_STOP = 0x0008 ∧ MACHINE_LIMIT_N = 0x0010 ∧
    MACHINE_LIMIT_P = 0x0020 ∧ MACHINE_HOME_DONE = 0x0040 ∧ MACHINE_HOME = 0x0080 ∧
    MACHINE_AUTO_RUN = 0x0100 ∧ MACHINE_LIMIT_N_NONE = 0x0200 ∧
    MACHINE_LIMIT_P_NONE = 0x0400 ∧ MACHINE_HOME_NONE = 0x0800 ∧
    MACHINE_HOME_OVERTIME = 0x1000 := by
  decide

/-- C2, as stated, fails: `struct machine_status` does not have the shape with
six scalar 32-bit unsigned words between `realSpeed` and `axisStatus`.  It has
10 members where that shape has 11; its scalar unsigned members are the five
words `inputStatus`, `outputStatus`, `limitNStatus`, `limitPStatus`,
`machineRunStatus`, and `homeStatus`, which the claim counts apart. -/
theorem machine_status_not_six_masks :
    shape machine_status ≠ statusShapeWithMasks 6 ∧
    (shape machine_status).length = 10 ∧ (statusShapeWithMasks 6).length = 11 ∧
    ((machine_status.filter (fun f => f.ty = .unsignedInt ∧ f.dims = [])).map Field.name)
      = ["inputStatus", "outputStatus", "limitNStatus", "limitPStatus",
          "machineRunStatus", "homeStatus"] := by
  decide

/-- C2, amended: `struct machine_status` consists, in this order, of 3 floats
`realPos`, 3 floats `realSpeed`, five 32-bit unsigned words (`inputStatus`,
`outputStatus`, `limitNStatus`, `limitPStatus`, `machineRunStatus`), 3 32-bit
unsigned `axisStatus` entries, one 32-bit unsigned `homeStatus`, and 20
file-name slots of 30 bytes each, and of nothing else. -/
theorem machine_status_members :
    machine_status.map Field.name
      = ["realPos", "realSpeed", "inputStatus", "outputStatus", "limitNStatus",
          "limitPStatus", "machineRunStatus", "axisStatus", "homeStatus", "file"] ∧
    shape machine_status = statusShapeWithMasks 5 ∧
    CType.float.bits = 32 ∧ CType.unsignedInt.bits = 32 ∧ CType.char.bits = 8 ∧
    machine_status.map Field.count = [3, 3, 1, 1, 1, 1, 1, 3, 1, 20 * 30] := by
  decide

/-- C3: `struct machine_device_para` consists, in this order, of the 32-bit
unsigned `id`, the 32-bit unsigned baud rates `bound232` and `bound485`, the
15-byte text `ip`, the 32-bit signed `port`, and the five 32-bit signed arrays
of `MAX_AXIS` elements `div`, `lead`, `softLimitMax`, `softLimitMin`,
`homeTime`. -/
theorem machine_device_para_members :
    machine_device_para.map Field.name
      = ["id", "bound232", "bound485", "ip", "port", "div", "lead",
          "softLimitMax", "softLimitMin", "homeTime"] ∧
    shape machine_device_para
      = [(.unsignedInt, []), (.unsignedInt, []), (.unsignedInt, []), (.char, [15]),
          (.int, []), (.int, [MAX_AXIS]), (.int, [MAX_AXIS]), (.int, [MAX_AXIS]),
          (.int, [MAX_AXIS]), (.int, [MAX_AXIS])] ∧
    CType.unsignedInt.bits = 32 ∧ CType.int.bits = 32 ∧
    (member machine_device_para "ip").map Field.size = some 15 ∧
    machine_device_para.map Field.count = [1, 1, 1, 15, 1, 3, 3, 3, 3, 3] := by
  decide

/-- C4: `MAX_AXIS` is 3; the per-axis arrays `realPos`, `realSpeed`,
`axisStatus` of `machine_status` and `div`, `lead`, `softLimitMax`,
`softLimitMin`, `homeTime` of `machine_device_para` have exactly `MAX_AXIS`
elements, so an integer index `axis` is inside any of them if and only if
`0 ≤ axis < 3`; no other member of the two records is an array of `MAX_AXIS`
elements. -/
theorem per_axis_arrays_bounds :
    MAX_AXIS = 3 ∧
    isPerAxisArray machine_status "realPos" ∧
    isPerAxisArray machine_status "realSpeed" ∧
    isPerAxisArray machine_status "axisStatus" ∧
    isPerAxisArray machine_device_para "div" ∧
    isPerAxisArray machine_device_para "lead" ∧
    isPerAxisArray machine_device_para "softLimitMax" ∧
    isPerAxisArray machine_device_para "softLimitMin" ∧
    isPerAxisArray machine_device_para "homeTime" ∧
    (machine_status.filter (fun f => f.dims = [MAX_AXIS])).map Field.name
      = ["realPos", "realSpeed", "axisStatus"] ∧
    (machine_device_para.filter (fun f => f.dims = [MAX_AXIS])).map Field.name
      = ["div", "lead", "softLimitMax", "softLimitMin", "homeTime"] := by
  refine ⟨rfl, ?_, ?_, ?_, ?_, ?_, ?_, ?_, ?_, by decide, by decide⟩ <;>
    exact ⟨_, by rfl, by rfl, fun axis => by simp [Field.inBounds, MAX_AXIS]⟩

/-- C5: for a valid `MachineStatus` value `s`, encoding succeeds, yields a
buffer of the record size, and decoding that buffer gives back `s`; the same
holds for a valid `DeviceParams` value `p`. -/
theorem codec_round_trip (s : MachineStatus) (p : DeviceParams) (hs : s.valid)
    (hp : p.valid) :
    (∃ bs, encodeStatus s = .ok bs ∧ bs.length = sizeof machine_status ∧
      decodeStatus bs = .ok s) ∧
    (∃ bs, encodeParams p = .ok bs ∧ bs.length = sizeof machine_device_para ∧
      decodeParams bs = .ok p) :=
  ⟨decodeStatus_encodeStatus s hs, decodeParams_encodeParams p hp⟩

/-- C5 at the sample snapshot and the sample parameter record, both valid. -/
theorem codec_round_trip_witness :
    sampleStatus.valid ∧ sampleParams.valid ∧
    (∃ bs, encodeStatus sampleStatus = .ok bs ∧ bs.length = sizeof machine_status ∧
      decodeStatus bs = .ok sampleStatus) ∧
    (∃ bs, encodeParams sampleParams = .ok bs ∧ bs.length = sizeof machine_device_para ∧
      decodeParams bs = .ok sampleParams) :=
  ⟨by decide, by decide, codec_round_trip sampleStatus sampleParams (by decide) (by decide)⟩

/-- C6: the 2-axis line command is accepted only for a mask that selects
exactly two of the three axes, that is one of 0x03, 0x05, 0x06; for every other
mask, 0x07 (all three axes) among them, it fails with `InvalidAxisMask`,
whatever the status and the other arguments are. -/
theorem line2Axis_mask_validation (status : MachineStatus)
    (mask endX endY speed acc dec : Nat) :
    ((∃ cmd, buildLine2Axis status mask endX endY speed acc dec = .ok cmd) →
        (mask = 0x03 ∨ mask = 0x05 ∨ mask = 0x06)) ∧
    (¬ (mask = 0x03 ∨ mask = 0x05 ∨ mask = 0x06) →
        buildLine2Axis status mask endX endY speed acc dec = .error .InvalidAxisMask) ∧
    buildLine2Axis status 0x07 endX endY speed acc dec = .error .InvalidAxisMask ∧
    ((mask = 0x03 ∨ mask = 0x05 ∨ mask = 0x06) ↔
      (mask < 2 ^ MAX_AXIS ∧ (selectedAxes mask).length = 2)) := by
  refine ⟨?_, buildLine2Axis_bad_mask status mask endX endY speed acc dec, rfl,
    two_axis_masks mask⟩
  rintro ⟨cmd, hcmd⟩
  by_contra hm
  rw [buildLine2Axis_bad_mask status mask endX endY speed acc dec hm] at hcmd
  cases hcmd

/-- C6 at concrete masks: 0x0B and 0x01 are refused with `InvalidAxisMask`,
and each of 0x03, 0x05, 0x06 is accepted for a machine whose axes are idle. -/
theorem line2Axis_mask_validation_witness :
    buildLine2Axis sampleStatus 0x0B 0 0 0 0 0 = .error .InvalidAxisMask ∧
    buildLine2Axis sampleStatus 0x01 0 0 0 0 0 = .error .InvalidAxisMask ∧
    buildLine2Axis idleStatus 0x03 0 0 0 0 0 = .ok (.Line2Axis .XY 0 0 0 0 0) ∧
    buildLine2Axis idleStatus 0x05 0 0 0 0 0 = .ok (.Line2Axis .XZ 0 0 0 0 0) ∧
    buildLine2Axis idleStatus 0x06 0 0 0 0 0 = .ok (.Line2Axis .YZ 0 0 0 0 0) :=
  ⟨(line2Axis_mask_validation sampleStatus 0x0B 0 0 0 0 0).2.1 (by decide),
    (line2Axis_mask_validation sampleStatus 0x01 0 0 0 0 0).2.1 (by decide),
    rfl, rfl, rfl⟩

/-- C7: the write-single-coil request (function 05) is built only for one of
the values 0x0000, 0xFF00, 1; for every other value, 0x1234 among them, the
operation fails with `InvalidParameter`. -/
theorem writeSingleCoil_value_validation (slaveId addr val : Nat) :
    ((∃ fr, writeSingleCoil slaveId addr val = .ok fr) →
        (val = 0x0000 ∨ val = 0xFF00 ∨ val = 1)) ∧
    (¬ (val = 0x0000 ∨ val = 0xFF00 ∨ val = 1) →
        writeSingleCoil slaveId addr val = .error .InvalidParameter) ∧
    writeSingleCoil slaveId addr 0x1234 = .error .InvalidParameter ∧
    (∀ v ∈ [0x0000, 0xFF00, 1], ∃ fr, writeSingleCoil slaveId addr v = .ok fr ∧
      fr.functionCode = 5) := by
  refine ⟨?_, ?_, rfl, ?_⟩
  · rintro ⟨fr, hfr⟩
    by_contra hv
    simp [writeSingleCoil, hv] at hfr
  · intro hv
    simp [writeSingleCoil, hv]
  · intro v hv
    simp only [List.mem_cons, List.mem_singleton, List.not_mem_nil, or_false] at hv
    rcases hv with h | h | h <;> subst h <;> exact ⟨_, rfl, rfl⟩

/-- C7 at the values 2 and 0xFFFF, both refused with `InvalidParameter`. -/
theorem writeSingleCoil_value_validation_witness :
    writeSingleCoil 1 0x0010 2 = .error .InvalidParameter ∧
    writeSingleCoil 1 0x0010 0xFFFF = .error .InvalidParameter :=
  ⟨(writeSingleCoil_value_validation 1 0x0010 2).2.1 (by decide),
    (writeSingleCoil_value_validation 1 0x0010 0xFFFF).2.1 (by decide)⟩

/-- C8: the thirteen non-zero axis-status constants are exactly the single
bits 0 to 12, pairwise disjoint, with bitwise OR 0x1FFF; for every word `v`
below 0x2000 the constants `v` tests positive for have bitwise OR `v`; two
different selections of the constants never give the same word;
`MACHINE_POWER_ON` is 0, no word tests positive for it, and a word below
0x2000 tests positive for no constant exactly when it is 0. -/
theorem axis_status_flags_partition :
    axisStatusFlags.length = 13 ∧
    (∀ c, c ∈ axisStatusFlags ↔ ∃ k, k < 13 ∧ c = 2 ^ k) ∧
    axisStatusFlags.Pairwise (fun a b => a &&& b = 0) ∧
    orAll axisStatusFlags = 0x1FFF ∧
    (∀ v, v < 0x2000 → orAll (flagsOf v) = v) ∧
    (∀ s t, List.Sublist s axisStatusFlags → List.Sublist t axisStatusFlags →
      orAll s = orAll t → s = t) ∧
    MACHINE_POWER_ON = 0 ∧
    (∀ v, v &&& MACHINE_POWER_ON = 0 ∧ hasFlag v MACHINE_POWER_ON = false) ∧
    (∀ v, v < 0x2000 → (flagsOf v = [] ↔ v = MACHINE_POWER_ON)) := by
  refine ⟨rfl, mem_axisStatusFlags, by decide, by decide, orAll_flagsOf, ?_, rfl, ?_, ?_⟩
  · intro s t hs ht h
    rw [← flagsOf_orAll hs, ← flagsOf_orAll ht, h]
  · intro v
    simp [hasFlag, MACHINE_POWER_ON]
  · intro v hv
    constructor
    · intro h
      have := orAll_flagsOf v hv
      rw [h] at this
      exact this.symm
    · intro h
      subst h
      decide

/-- C8 at the word 0x1041 (running, homing done, homing timed out), and at the
two selections running + stopped and paused + stopped. -/
theorem axis_status_flags_partition_witness :
    flagsOf 0x1041 = [MACHINE_RUNNING, MACHINE_HOME_DONE, MACHINE_HOME_OVERTIME] ∧
    orAll (flagsOf 0x1041) = 0x1041 ∧
    (orAll [MACHINE_RUNNING, MACHINE_STOP] = orAll [MACHINE_PAUSE, MACHINE_STOP] →
      [MACHINE_RUNNING, MACHINE_STOP] = [MACHINE_PAUSE, MACHINE_STOP]) ∧
    orAll [MACHINE_RUNNING, MACHINE_STOP] = 0x0009 ∧
    orAll [MACHINE_PAUSE, MACHINE_STOP] = 0x000A :=
  ⟨by decide, axis_status_flags_partition.2.2.2.2.1 0x1041 (by decide),
    axis_status_flags_partition.2.2.2.2.2.1 _ _ (by decide) (by decide),
    by decide, by decide⟩

/-- C9: with 4-byte `float` and `unsigned int` and natural alignment,
`struct machine_status` occupies exactly 660 bytes; its members start at the
offsets 0, 12, 24, 28, 32, 36, 40, 44, 56, 60, each a multiple of 4; no byte of
the record is padding; and every object of the record, whatever its members
hold, is 660 bytes long. -/
theorem machine_status_layout (content : String → Nat → Nat) :
    CType.float.size = 4 ∧ CType.unsignedInt.size = 4 ∧
    sizeof machine_status = 660 ∧
    layoutFrom 0 machine_status
      = [("realPos", 0), ("realSpeed", 12), ("inputStatus", 24), ("outputStatus", 28),
          ("limitNStatus", 32), ("limitPStatus", 36), ("machineRunStatus", 40),
          ("axisStatus", 44), ("homeStatus", 56), ("file", 60)] ∧
    (∀ entry ∈ layoutFrom 0 machine_status, entry.2 % 4 = 0) ∧
    paddingBytes machine_status = 0 ∧
    (machine_status.map Field.size).sum = 660 ∧
    (image content machine_status).length = 660 := by
  refine ⟨rfl, rfl, by decide, by decide, by decide, by decide, by decide, ?_⟩
  simp [image, imageFrom, machine_status, Field.size, Field.count, CType.size, CType.align,
    alignUp, MAX_AXIS, sizeof, endFrom, structAlign]

/-- C10: with 4-byte `int` and `unsigned int` and natural alignment,
`struct machine_device_para` occupies exactly 92 bytes although its members
sum to 91: `ip` starts at offset 12 and ends at offset 27, exactly one padding
byte follows it, `port` is at offset 28, and `div`, `lead`, `softLimitMax`,
`softLimitMin`, `homeTime` start at 32, 44, 56, 68, 80. -/
theorem machine_device_para_layout (content : String → Nat → Nat) :
    CType.int.size = 4 ∧ CType.unsignedInt.size = 4 ∧ CType.char.size = 1 ∧
    sizeof machine_device_para = 92 ∧
    (machine_device_para.map Field.size).sum = 91 ∧
    layoutFrom 0 machine_device_para
      = [("id", 0), ("bound232", 4), ("bound485", 8), ("ip", 12), ("port", 28),
          ("div", 32), ("lead", 44), ("softLimitMax", 56), ("softLimitMin", 68),
          ("homeTime", 80)] ∧
    (member machine_device_para "ip").map (fun f => 12 + f.size) = some 27 ∧
    gapBetween machine_device_para "ip" "port" = some 1 ∧
    paddingBytes machine_device_para = 1 ∧
    endFrom 0 machine_device_para = 92 ∧
    (image content machine_device_para).length = 92 := by
  refine ⟨rfl, rfl, rfl, by decide, by decide, by decide, by decide, by decide, by decide,
    by decide, ?_⟩
  simp [image, imageFrom, machine_device_para, Field.size, Field.count, CType.size,
    CType.align, alignUp, MAX_AXIS, sizeof, endFrom, structAlign]

end FMC4030
